import Mathlib

/-!
Verification development for the parsel selection library
(`parsel/csstranslator.py`, `parsel/selector.py`, `parsel/utils.py`,
`parsel/xpathfuncs.py`), as a shallow embedding in Lean 4.

Pure string/list functions of the source are translated directly;
stateful pieces (the global XPath extension-function namespace, tree
mutation) are modelled by explicit state passing; Python exceptions are
modelled with `Except`/`Option`-valued results.  External collaborators
(the cssselect compiler, the lxml parser/serializer, the Python `re`
engine, the JSON decoder) appear only through the data they exchange
with the code under verification.
-/

namespace Parsel

/-! ## csstranslator.py — `XPathExpr.__str__` (extended path rendering) -/

/--
Embedding of `XPathExpr.__str__` from `parsel/csstranslator.py`.
`path` is the string produced by the base-class renderer
(`super().__str__()`, external cssselect code); `textnode` and
`attribute` are the two annotation fields of the extended expression.
-/
def xpathExprStr (path : String) (textnode : Bool) (attrName : Option String) : String :=
  let path :=
    if textnode then
      if path = "*" then "text()"
      else if path.endsWith "::*/*" then path.dropRight 3 ++ "text()"
      else path ++ "/text()"
    else path
  match attrName with
  | none => path
  | some attr =>
    let path := if path.endsWith "::*/*" then path.dropRight 2 else path
    path ++ "/@" ++ attr

/-- Step 1 of the spec's rendering rule: the base path is rendered by the
standard (external) serialization rule; in the embedding that rendered
string is the input itself. -/
def renderBase (p : String) : String := p

/-- Step 2 of the spec's rendering rule: the textnode adjustment. -/
def textnodeStep (textnode : Bool) (p : String) : String :=
  if textnode then
    if p = "*" then "text()"
    else if p.endsWith "::*/*" then p.dropRight 3 ++ "text()"
    else p ++ "/text()"
  else p

/-- Step 3 of the spec's rendering rule: the attribute adjustment,
applied to the possibly already textnode-adjusted path. -/
def attributeStep (attrName : Option String) (p : String) : String :=
  match attrName with
  | none => p
  | some attr => (if p.endsWith "::*/*" then p.dropRight 2 else p) ++ "/@" ++ attr

/-! ## utils.py — `extract_regex` -/

/-- One match produced by the external regex engine's `finditer`:
the full matched substring (`group(0)`) and the captures of the
numbered groups in order (`None` where a group did not participate). -/
structure RMatch where
  matched : String
  groups : List (Option String)
deriving DecidableEq

/-- The statically known shape of a compiled pattern: the (1-based)
group number of a group literally named `extract` when the pattern
defines one (`regex.groupindex['extract']`), and the total count of
capturing groups (`regex.groups`). -/
structure CompiledRegex where
  extractIdx : Option Nat
  ngroups : Nat
deriving DecidableEq

/-- Resolution of `match.group(name)` for a named group resolved to its group number. -/
def RMatch.group (m : RMatch) (i : Nat) : Option String :=
  (m.groups.get? (i - 1)).join

/-- Python's `str(s)` on the values `extract_regex` collects: a capture
that is `None` renders as the four-character string `None`. -/
def pyStr : Option String → String
  | some s => s
  | none => "None"

/--
Embedding of `extract_regex` from `parsel/utils.py`, applied to the
match list that the external engine's `finditer`/`findall` produced on
the (entity-replaced) text.  The three branches mirror the source:
a group named `extract`, else numbered groups flattened, else the full
match; the final line models `[str(s) for s in extracted]`.
-/
def extract_regex (rx : CompiledRegex) (ms : List RMatch) : List String :=
  let extracted : List (Option String) :=
    match rx.extractIdx with
    | some i => ms.map (fun m => m.group i)
    | none =>
      if rx.ngroups > 0 then (ms.map (fun m => m.groups)).flatten
      else ms.map (fun m => some m.matched)
  extracted.map pyStr

/-- The extraction policy exactly as the claim words it: in branch (a)
matches where the `extract` group did not participate are skipped. -/
def extractPolicyClaim (rx : CompiledRegex) (ms : List RMatch) : List String :=
  match rx.extractIdx with
  | some i => (ms.map (fun m => m.group i)).filterMap id
  | none =>
    if rx.ngroups > 0 then ((ms.map (fun m => m.groups)).flatten).map pyStr
    else ms.map (fun m => m.matched)

/-- The amended extraction policy: branch (a) keeps every match, in
match order, rendering a non-participating `extract` group as the
string `None`. -/
def extractPolicyAmended (rx : CompiledRegex) (ms : List RMatch) : List String :=
  match rx.extractIdx with
  | some i => ms.map (fun m => pyStr (m.group i))
  | none =>
    if rx.ngroups > 0 then ((ms.map (fun m => m.groups)).flatten).map pyStr
    else ms.map (fun m => m.matched)

/-! ## utils.py — `flatten` / `iflatten` / `_is_listlike` -/

/-- The universe of Python values the flatten utilities traverse:
text-like scalars (strings, byte strings), other scalars, and nested
sequences. -/
inductive PyV where
  | str (s : String)
  | bytes (b : List Nat)
  | int (n : Int)
  | pynone
  | list (xs : List PyV)

/-- Test `hasattr(x, '__iter__')`: lists, strings and byte strings support
forward iteration; plain numbers and `None` do not. -/
def hasIterAttr : PyV → Bool
  | .str _ => true
  | .bytes _ => true
  | .list _ => true
  | _ => false

/-- Test `isinstance(x, (str, bytes))`. -/
def isStrOrBytes : PyV → Bool
  | .str _ => true
  | .bytes _ => true
  | _ => false

/-- Embedding of `_is_listlike` from `parsel/utils.py`:
`hasattr(x, '__iter__') and not isinstance(x, (str, bytes))`. -/
def _is_listlike (v : PyV) : Bool := hasIterAttr v && !isStrOrBytes v

/-- Iteration `for el in x`: the element sequence Python iteration would yield —
in particular a string yields its characters and a byte string its
byte values, which is exactly what `_is_listlike` protects against. -/
def pyIter : PyV → List PyV
  | .list xs => xs
  | .str s => s.data.map (fun c => .str (String.mk [c]))
  | .bytes b => b.map (fun n => .int (Int.ofNat n))
  | _ => []

/--
Embedding of `flatten` from `parsel/utils.py`: each element of the
iterable is appended as-is when it is not list-like, and replaced by
its recursive flattening otherwise.
-/
def flatten (x : List PyV) : List PyV :=
  match x with
  | [] => []
  | el :: rest =>
    if h : _is_listlike el = true then flatten (pyIter el) ++ flatten rest
    else el :: flatten rest
termination_by sizeOf x
decreasing_by
  · cases el with
    | str s => simp [_is_listlike, hasIterAttr, isStrOrBytes] at h
    | bytes b => simp [_is_listlike, hasIterAttr, isStrOrBytes] at h
    | int n => simp [_is_listlike, hasIterAttr, isStrOrBytes] at h
    | pynone => simp [_is_listlike, hasIterAttr, isStrOrBytes] at h
    | list xs => simp [pyIter]; omega
  · simp
  · simp

/--
Embedding of `iflatten` from `parsel/utils.py`: the generator variant,
whose materialization is its yielded sequence; the traversal is the
same as `flatten`'s.
-/
def iflatten (x : List PyV) : List PyV :=
  match x with
  | [] => []
  | el :: rest =>
    if h : _is_listlike el = true then iflatten (pyIter el) ++ iflatten rest
    else el :: iflatten rest
termination_by sizeOf x
decreasing_by
  · cases el with
    | str s => simp [_is_listlike, hasIterAttr, isStrOrBytes] at h
    | bytes b => simp [_is_listlike, hasIterAttr, isStrOrBytes] at h
    | int n => simp [_is_listlike, hasIterAttr, isStrOrBytes] at h
    | pynone => simp [_is_listlike, hasIterAttr, isStrOrBytes] at h
    | list xs => simp [pyIter]; omega
  · simp
  · simp

/-- The spec's notion: a value is expandable iff it supports forward
iteration and is not a text-like scalar. -/
def expandable (v : PyV) : Bool := hasIterAttr v && !isStrOrBytes v

/-- The spec-side traversal: collect, in order, every non-expandable
value of the nested sequence (text-like scalars are kept whole, never
split into their characters/bytes). -/
def leaves (x : List PyV) : List PyV :=
  match x with
  | [] => []
  | el :: rest =>
    if h : expandable el = true then leaves (pyIter el) ++ leaves rest
    else el :: leaves rest
termination_by sizeOf x
decreasing_by
  · cases el with
    | str s => simp [expandable, hasIterAttr, isStrOrBytes] at h
    | bytes b => simp [expandable, hasIterAttr, isStrOrBytes] at h
    | int n => simp [expandable, hasIterAttr, isStrOrBytes] at h
    | pynone => simp [expandable, hasIterAttr, isStrOrBytes] at h
    | list xs => simp [pyIter]; omega
  · simp
  · simp

/-! ## xpathfuncs.py — `has_class` -/

/-- The constant `w3lib.html.HTML5_WHITESPACE`, the five HTML5 whitespace
characters. -/
def HTML5_WHITESPACE : List Char := [' ', '\t', '\n', '\x0c', '\r']

/-- Membership in the HTML5 whitespace set (the character class of the
module-level `regex`). -/
def isHtml5Ws (c : Char) : Bool := HTML5_WHITESPACE.any (fun w => c == w)

/-- The whitespace Python's `str.split()` (no separator) splits on,
restricted to the ASCII fragment the model's strings range over.  It
strictly contains the HTML5 set — e.g. the vertical tab `\x0b`. -/
def pySplitWhitespace : List Char := [' ', '\t', '\n', '\r', '\x0b', '\x0c']

/-- Membership in Python's split-whitespace set. -/
def isPyWs (c : Char) : Bool := pySplitWhitespace.any (fun w => c == w)

/-- Splitting on runs of separator characters, dropping empty pieces —
the common core of `str.split()` and of HTML5 tokenization.  `cur`
accumulates the current token in reverse. -/
def tokenizeAux (p : Char → Bool) : List Char → List Char → List String
  | [], cur => if cur.isEmpty then [] else [String.mk cur.reverse]
  | c :: cs, cur =>
    if p c then
      if cur.isEmpty then tokenizeAux p cs []
      else String.mk cur.reverse :: tokenizeAux p cs []
    else tokenizeAux p cs (c :: cur)

/-- Split a string on runs of characters satisfying `p`, with no empty
tokens. -/
def tokenize (p : Char → Bool) (s : String) : List String := tokenizeAux p s.data []

/-- Run-collapsing with a state flag: `inRun` records whether the
previous character belonged to an HTML5 whitespace run whose single
replacement space has already been emitted. -/
def collapseRunsAux : Bool → List Char → List Char
  | _, [] => []
  | inRun, c :: cs =>
    if isHtml5Ws c then
      if inRun then collapseRunsAux true cs
      else ' ' :: collapseRunsAux true cs
    else c :: collapseRunsAux false cs

/-- The substitution `re.compile('[HTML5_WHITESPACE]+').sub(' ', ·)`:
every maximal run of HTML5 whitespace becomes a single space. -/
def collapseRuns (l : List Char) : List Char := collapseRunsAux false l

/-- Embedding of `replace_html5_whitespaces(' ', s)` from
`parsel/xpathfuncs.py`. -/
def replace_html5_whitespaces (s : String) : String := String.mk (collapseRuns s.data)

/--
Embedding of `has_class` from `parsel/xpathfuncs.py`.  `classAttr` is
`context.context_node.get('class')` (`none` when the attribute is
absent); the source returns `False` when that value is falsy (`None`
or the empty string), then tests every requested class for membership
in `set(replace_html5_whitespaces(' ', attr).split())`. -/
def has_class (classAttr : Option String) (classes : List String) : Bool :=
  match classAttr with
  | none => false
  | some c =>
    if c = "" then false
    else classes.all (fun cls => (tokenize isPyWs (replace_html5_whitespaces c)).contains cls)

/-- Tokenization on the HTML5 whitespace set alone — the claim's
reading. -/
def html5Tokens (s : String) : List String := tokenize isHtml5Ws s

/-- The claim as worded: true iff every listed class name is present in
the class attribute tokenized on HTML5 whitespace characters. -/
def hasClassClaim (classAttr : Option String) (classes : List String) : Bool :=
  classes.all (fun cls => (html5Tokens (classAttr.getD "")).contains cls)

/-- The amended predicate: the element must have a present, non-empty
class attribute, and the tokenization is on Python's split-whitespace
set (a strict superset of the HTML5 set). -/
def hasClassAmended (classAttr : Option String) (classes : List String) : Bool :=
  match classAttr with
  | none => false
  | some c =>
    if c = "" then false
    else classes.all (fun cls => (tokenize isPyWs c).contains cls)

/-! ## xpathfuncs.py — `set_xpathfunc` -/

/-- Registered extension functions are opaque callables; the embedding
identifies them by a handle. -/
abbrev FuncHandle := Nat

/-- The global `etree.FunctionNamespace(None)` mapping, passed
explicitly as state. -/
abbrev FunctionNamespace := List (String × FuncHandle)

/-- Test `fname in ns`. -/
def nsContains (ns : FunctionNamespace) (fname : String) : Bool :=
  ns.any (fun p => p.1 == fname)

/-- Deletion `del ns[fname]` (dictionary keys are unique; removal by key). -/
def nsDel (ns : FunctionNamespace) (fname : String) : FunctionNamespace :=
  ns.filter (fun p => !(p.1 == fname))

/-- Assignment `ns[fname] = func` (replace any existing binding for the key). -/
def nsSet (ns : FunctionNamespace) (fname : String) (f : FuncHandle) : FunctionNamespace :=
  nsDel ns fname ++ [(fname, f)]

/--
Embedding of `set_xpathfunc` from `parsel/xpathfuncs.py`: with `none`
it deletes the entry only when present (so it never raises); with a
function it (re)binds the name.  The new namespace state is returned.
-/
def set_xpathfunc (ns : FunctionNamespace) (fname : String) (func : Option FuncHandle) :
    FunctionNamespace :=
  match func with
  | none => if nsContains ns fname then nsDel ns fname else ns
  | some f => nsSet ns fname f

/-! ## selector.py — data model shared by `get`, `css`, `attrib`, `__init__` -/

/-- A parsed element as far as the embedding needs it: tag, attribute
list, serialized inner content, and the trailing sibling text (`tail`)
that lxml attaches to the element. -/
structure XElem where
  tag : String
  attrs : List (String × String)
  text : String
  tail : String
deriving DecidableEq

/-- The value a Selector's `root` slot can hold: an element of a parsed
tree, or a scalar produced by an upstream query / JSON decode
(`Root.null` models Python `None`). -/
inductive Root where
  | element (e : XElem)
  | boolean (b : Bool)
  | str (s : String)
  | int (n : Int)
  | null
deriving DecidableEq

/-- The two translator dialects held by `_ctgroup`. -/
inductive Translator where
  | htmlT
  | genericT
deriving DecidableEq

/-- Lookup `_ctgroup[t]['_tostring_method']`: the module-level table has
exactly the keys `html` and `xml`; any other key raises `KeyError`,
modelled by `none`. -/
def ctgroupTostringMethod : String → Option String
  | "html" => some "html"
  | "xml" => some "xml"
  | _ => none

/-- Lookup `_ctgroup[t]['_csstranslator']`: `HTMLTranslator()` under `html`,
`GenericTranslator()` under `xml`, `KeyError` (`none`) otherwise. -/
def ctgroupCsstranslator : String → Option Translator
  | "html" => some .htmlT
  | "xml" => some .genericT
  | _ => none

/-- Model of the external `lxml.etree.tostring` serializer on the
element fragment the embedding carries.  The two dialects agree on this
fragment; `withTail` controls whether the trailing sibling text is
appended, which is the part of the external contract `get` exercises
(`with_tail=False`). -/
def etree_tostring (e : XElem) (method : String) (withTail : Bool) : String :=
  let _ := method
  let attrsStr := (e.attrs.map (fun kv => " " ++ kv.1 ++ "=\x22" ++ kv.2 ++ "\x22")).foldl
    (· ++ ·) ""
  "<" ++ e.tag ++ attrsStr ++ ">" ++ e.text ++ "</" ++ e.tag ++ ">" ++
    (if withTail then e.tail else "")

/--
Embedding of `Selector.get` from `parsel/selector.py`.  The source
evaluates `_ctgroup[self.type]['_tostring_method']` first (a `KeyError`
for a type tag outside {html, xml} escapes the `try`, which only
catches `AttributeError`/`TypeError`); then `etree.tostring` succeeds
on an element root and raises `TypeError` on any non-node root, landing
in the fallback that renders `True`/`False` as `1`/`0` and anything
else as `str(root)`.
-/
def Selector.get (typ : String) (root : Root) : Except String String :=
  match ctgroupTostringMethod typ with
  | none => .error ("KeyError: " ++ typ)
  | some method =>
    match root with
    | .element e => .ok (etree_tostring e method false)
    | .boolean true => .ok "1"
    | .boolean false => .ok "0"
    | .str s => .ok s
    | .int n => .ok (toString n)
    | .null => .ok "None"

/--
Embedding of `Selector.css` from `parsel/selector.py`:
`self.xpath(_ctgroup[self.type]['_csstranslator'].css_to_xpath(query))`.
The external cssselect compilation and the delegated `xpath` call are
represented by the pair (chosen translator, query handed to it); a type
tag outside {html, xml} raises `KeyError` at the table lookup.
-/
def Selector.css (typ : String) (query : String) : Except String (Translator × String) :=
  match ctgroupCsstranslator typ with
  | none => .error ("KeyError: " ++ typ)
  | some t => .ok (t, query)

/--
Embedding of the `Selector.attrib` property from `parsel/selector.py`.
Its body in the source is a docstring followed by `pass`, so the
property returns `None` for every Selector regardless of the root.
-/
def Selector.attrib (root : Root) : Option (List (String × String)) :=
  let _ := root
  none

/-- The attribute mapping the claim (and the property's own docstring)
promises: the bound node's attributes when it is an element, an empty
mapping otherwise. -/
def attribSpec (root : Root) : List (String × String) :=
  match root with
  | .element e => e.attrs
  | _ => []

/-! ## selector.py — `remove` / `drop` (tree mutation) -/

/-- A document tree as far as the mutation operations need it. -/
inductive XTree where
  | node (tag : String) (children : List XTree)

/-- The three exception classes declared at the top of
`parsel/selector.py` (`CannotDropElementWithoutParent` subclasses
`CannotRemoveElementWithoutParent`). -/
inductive RemovalError where
  | cannotRemoveElementWithoutRoot
  | cannotRemoveElementWithoutParent
  | cannotDropElementWithoutParent
deriving DecidableEq

/-- Each of the three error kinds is raised only when the bound node
has no parent, so all belong to the parent-missing category the spec
describes. -/
def RemovalError.parentMissing : RemovalError → Bool
  | _ => true

/-- The children of a tree node. -/
def XTree.children : XTree → List XTree
  | .node _ cs => cs

/-- Replace the children of a tree node. -/
def XTree.setChildren : XTree → List XTree → XTree
  | .node tag _, cs => .node tag cs

/-- A Selector's bound node is addressed by its path of child indices
from the document root; `self.root.getparent()` is `None` exactly for
the empty path. -/
def getparent (path : List Nat) : Option (List Nat) :=
  match path with
  | [] => none
  | _ => some path.dropLast

/-- Mutation `parent.remove(child)` resolved through a path: delete the subtree
at `path` from the document. -/
def eraseAt (path : List Nat) (t : XTree) : XTree :=
  match path with
  | [] => t
  | [i] => t.setChildren (t.children.eraseIdx i)
  | i :: rest =>
    match t.children.get? i with
    | none => t
    | some c => t.setChildren (t.children.set i (eraseAt rest c))

/-- Mutation `parent.drop(child)` resolved through a path: detach the node at
`path`, splicing its children into its former position. -/
def dropAt (path : List Nat) (t : XTree) : XTree :=
  match path with
  | [] => t
  | [i] =>
    match t.children.get? i with
    | none => t
    | some c => t.setChildren (t.children.take i ++ c.children ++ t.children.drop (i + 1))
  | i :: rest =>
    match t.children.get? i with
    | none => t
    | some c => t.setChildren (t.children.set i (dropAt rest c))

/--
Embedding of `Selector.remove` from `parsel/selector.py`: the parent is
looked up first; when it is `None` the call raises
`CannotRemoveElementWithoutRoot` before touching the tree; otherwise
the node is removed from its parent.  The pair returned is (raised
error, resulting document). -/
def Selector.remove (doc : XTree) (path : List Nat) : Option RemovalError × XTree :=
  match getparent path with
  | none => (some .cannotRemoveElementWithoutRoot, doc)
  | some _ => (none, eraseAt path doc)

/--
Embedding of `Selector.drop` from `parsel/selector.py`: same parent
check, raising `CannotDropElementWithoutParent` before any mutation,
otherwise dropping the node from its parent. -/
def Selector.drop (doc : XTree) (path : List Nat) : Option RemovalError × XTree :=
  match getparent path with
  | none => (some .cannotDropElementWithoutParent, doc)
  | some _ => (none, dropAt path doc)

/-! ## selector.py — `Selector.__init__` (document root resolver) -/

/-- Modelled from the spec: the external forgiving parser behind
`create_root_node`.  The part the claims rely on is its fallback — when
the parser yields no tree a minimal `<html/>` document is synthesized —
so the result is always an element, never null. -/
def parseMarkup (text : String) : XElem :=
  if text = "" then { tag := "html", attrs := [], text := "", tail := "" }
  else { tag := "document", attrs := [], text := text, tail := "" }

/-- Modelled from the spec: the external JSON decoder used for
`json`-typed input, on the scalar fragment of JSON the embedding
carries; `null` decodes to the null value. -/
def jsonDecode (s : String) : Root :=
  if s = "null" then .null
  else if s = "true" then .boolean true
  else if s = "false" then .boolean false
  else .str s

/-- Modelled from the spec: `_get_root_and_type_from_text`, which is
referenced by `Selector.__init__` but absent from the source files.
Per §4.1 of the spec: an absent type falls back to `html` (content
sniffing modelled by the fallback), a declared type is respected
unconditionally; `html`/`xml` parse the text (fallback `<html/>`),
`json` decodes it, `text` adopts the literal string. -/
def getRootAndTypeFromText (text : String) (inputType : Option String) : Root × String :=
  match inputType.getD "html" with
  | "text" => (.str text, "text")
  | "json" => (jsonDecode text, "json")
  | ty => (.element (parseMarkup text), ty)

/-- Modelled from the spec: `_get_root_and_type_from_bytes` — the body
is decoded with the given encoding and resolved like text.  The
encoding is modelled as a pure code-point decode. -/
def getRootAndTypeFromBytes (body : List Nat) (encoding : String) (inputType : Option String) :
    Root × String :=
  let _ := encoding
  getRootAndTypeFromText (String.mk (body.map Char.ofNat)) inputType

/-- Modelled from the spec: `_get_root_type`, referenced by
`Selector.__init__` but absent from the source files.  A declared type
is never overridden by inference; otherwise an element root infers a
markup type and any other adopted value is a decoded-JSON-style root. -/
def getRootType (root : Root) (inputType : Option String) : String :=
  inputType.getD (match root with | .element _ => "html" | _ => "json")

/-- The set of acceptable values of the `type` argument,
`('html', 'json', 'text', 'xml', None)`. -/
def validTypeArg (typ : Option String) : Bool :=
  typ ∈ [some "html", some "json", some "text", some "xml", none]

/--
Embedding of `Selector.__init__` from `parsel/selector.py`.  Arguments:
`text` (`None` or a string), `typ` (the `type` argument), `body` (byte
list, `b''` when not supplied), `root` where `none` stands for the
`_NOT_SET` sentinel and `some r` for a supplied root — including
`some Root.null` for an explicitly supplied Python `None`.  The result
is the `(root, type)` pair bound to the constructed Selector, or the
`ValueError` the constructor raises. -/
def selectorInit (text : Option String) (typ : Option String) (body : List Nat)
    (encoding : String) (root : Option Root) : Except String (Root × String) :=
  if !validTypeArg typ then .error "ValueError: Invalid type"
  else if text = none ∧ body = [] ∧ root = none then
    .error "ValueError: Selector needs text, body, or root arguments"
  else
    match text with
    | some t => .ok (getRootAndTypeFromText t typ)
    | none =>
      if body ≠ [] then .ok (getRootAndTypeFromBytes body encoding typ)
      else
        match root with
        | none => .error "ValueError: Selector needs text, body, or root arguments"
        | some r => .ok (r, getRootType r typ)

end Parsel

namespace Parsel

/-- Claim C1: rendering an extended path expression is a pure function of
(base path, textnode flag, attribute name) applied in order — base
rendering first, then the textnode adjustment (`*` ↦ `text()`, a
`::*/*` suffix has its last 3 characters replaced by `text()`, else
`/text()` is appended), then the attribute adjustment (a `::*/*` suffix
loses its last 2 characters, then `/@attr` is appended). -/
theorem xpathExprStr_spec_order (p : String) (tn : Bool) (a : Option String) :
    xpathExprStr p tn a = attributeStep a (textnodeStep tn (renderBase p)) := by
  cases a <;> cases tn <;> rfl

/-- Claim C3, counterexample: on a pattern whose `extract` group exists
but did not participate in a match (e.g. `(?P<extract>a)?b` on the text
`b`), the code returns the string `None` for that match, while the
claim's policy skips the match. -/
theorem extract_regex_counterexample :
    extract_regex ⟨some 1, 1⟩ [⟨"b", [none]⟩] = ["None"] ∧
    extractPolicyClaim ⟨some 1, 1⟩ [⟨"b", [none]⟩] = [] := by
  constructor <;> rfl

/-- Claim C3, amended: `extract_regex` applies exactly one policy chosen
by priority — (a) an `extract`-named group returns, for every match in
match order, the string form of that group's capture, the string `None`
where the group did not participate; (b) else numbered groups are
returned from every match, flattened one level, each coerced to text;
(c) else the full matched substring for every match. -/
theorem extract_regex_amended (rx : CompiledRegex) (ms : List RMatch) :
    extract_regex rx ms = extractPolicyAmended rx ms := by
  unfold extract_regex extractPolicyAmended
  cases h : rx.extractIdx with
  | some i => simp [List.map_map, Function.comp]
  | none =>
    by_cases hg : rx.ngroups > 0
    · simp [hg]
    · simp [hg, List.map_map, Function.comp, pyStr]

/-- Claim C10: deregistering a name that is not registered is a no-op
(the guarded delete raises nothing and leaves the namespace unchanged),
and registering a function then deregistering it leaves the name
unregistered. -/
theorem set_xpathfunc_deregister (ns : FunctionNamespace) (fname : String) (f : FuncHandle) :
    (nsContains ns fname = false → set_xpathfunc ns fname none = ns) ∧
    nsContains (set_xpathfunc (set_xpathfunc ns fname (some f)) fname none) fname = false := by
  constructor
  · intro h
    simp [set_xpathfunc, h]
  · simp only [set_xpathfunc, nsSet]
    by_cases h : nsContains (nsDel ns fname ++ [(fname, f)]) fname
    · simp only [h, if_true]
      simp [nsContains, nsDel, List.any_eq_true, List.mem_filter]
    · exfalso
      simp [nsContains] at h

/-- Claim C10, witness: instantiated on the empty namespace and a
concrete name/function pair. -/
theorem set_xpathfunc_deregister_witness :
    (nsContains ([] : FunctionNamespace) "myfunc" = false →
      set_xpathfunc [] "myfunc" none = []) ∧
    nsContains (set_xpathfunc (set_xpathfunc [] "myfunc" (some 7)) "myfunc" none) "myfunc"
      = false :=
  set_xpathfunc_deregister [] "myfunc" 7

/-- Claim C2, code bug: a Selector of type tag `text` bound to the
string root `hello` (e.g. `Selector(text='hello', type='text')`) should,
per the claim, have `get()` return the string form `hello`; the code
instead raises `KeyError('text')`, because `_ctgroup[self.type]` is
evaluated before `etree.tostring` and the table has only the keys
`html` and `xml`, while the `except` clause only catches
`AttributeError`/`TypeError`.  On type tags `html`/`xml` the claimed
behaviour does hold, as the remaining conjuncts record. -/
theorem get_keyerror_on_text_type :
    Selector.get "text" (Root.str "hello") = Except.error "KeyError: text" ∧
    Selector.get "json" (Root.str "hello") = Except.error "KeyError: json" ∧
    Selector.get "html" (Root.element ⟨"p", [], "hi", "TAIL"⟩) = Except.ok "<p>hi</p>" ∧
    Selector.get "html" (Root.boolean true) = Except.ok "1" ∧
    Selector.get "html" (Root.boolean false) = Except.ok "0" ∧
    Selector.get "xml" (Root.int 7) = Except.ok "7" := by
  refine ⟨rfl, rfl, rfl, rfl, rfl, rfl⟩

/-- Claim C4, counterexample: for a Selector whose type tag is `json`,
the claim says `css` translates with the generic dialect and delegates
to `xpath`; the code instead raises `KeyError('json')` at the
`_ctgroup[self.type]` lookup, since the table has only the keys `html`
and `xml`. -/
theorem css_json_counterexample :
    Selector.css "json" "a" = Except.error "KeyError: json" ∧
    Selector.css "json" "a" ≠ Except.ok (Translator.genericT, "a") := by
  constructor
  · rfl
  · intro h
    exact absurd h (by simp [Selector.css, ctgroupCsstranslator])

/-- Claim C4, amended: `css(query)` translates with the HTML dialect
when the type tag is `html` and with the generic dialect when it is
`xml`, delegating the translated expression to `xpath`; for every other
type tag (`json`, `text`) the `_ctgroup` lookup fails with a
`KeyError`, so no translation or delegation happens. -/
theorem css_dispatch (typ q : String) :
    (typ = "html" → Selector.css typ q = Except.ok (Translator.htmlT, q)) ∧
    (typ = "xml" → Selector.css typ q = Except.ok (Translator.genericT, q)) ∧
    (typ ≠ "html" → typ ≠ "xml" →
      Selector.css typ q = Except.error ("KeyError: " ++ typ)) := by
  refine ⟨fun h => by subst h; rfl, fun h => by subst h; rfl, fun h1 h2 => ?_⟩
  have hnone : ctgroupCsstranslator typ = none := by
    unfold ctgroupCsstranslator
    split
    · exact absurd rfl h1
    · exact absurd rfl h2
    · rfl
  simp [Selector.css, hnone]

/-- Claim C4, witness for the amended dispatch at the three concrete
type tags `html`, `xml`, `json`. -/
theorem css_dispatch_witness :
    Selector.css "html" "a" = Except.ok (Translator.htmlT, "a") ∧
    Selector.css "xml" "a" = Except.ok (Translator.genericT, "a") ∧
    Selector.css "json" "a" = Except.error ("KeyError: " ++ "json") :=
  ⟨(css_dispatch "html" "a").1 rfl, (css_dispatch "xml" "a").2.1 rfl,
    (css_dispatch "json" "a").2.2 (by decide) (by decide)⟩

/-- Claim C5, code bug: the claim (and the property's own docstring)
says `attrib` returns the bound element's attribute mapping, and an
empty mapping in every other case, never null; the property's body in
the source is a bare `pass`, so it returns `None` for every Selector —
here evaluated on an element that carries an attribute. -/
theorem attrib_returns_none :
    Selector.attrib (Root.element ⟨"a", [("href", "/x")], "t", ""⟩) = none ∧
    attribSpec (Root.element ⟨"a", [("href", "/x")], "t", ""⟩) = [("href", "/x")] := by
  exact ⟨rfl, rfl⟩

/-- Claim C6: on a Selector bound to a node with no parent (the tree
root), `remove()` and `drop()` each fail with a parent-missing error,
the two raised kinds are distinct (`CannotRemoveElementWithoutRoot`
vs. `CannotDropElementWithoutParent`), and the document is returned
unchanged because the error is raised before any mutation. -/
theorem remove_drop_root_error (doc : XTree) (path : List Nat)
    (h : getparent path = none) :
    Selector.remove doc path = (some RemovalError.cannotRemoveElementWithoutRoot, doc) ∧
    Selector.drop doc path = (some RemovalError.cannotDropElementWithoutParent, doc) ∧
    RemovalError.cannotRemoveElementWithoutRoot ≠
      RemovalError.cannotDropElementWithoutParent ∧
    RemovalError.cannotRemoveElementWithoutRoot.parentMissing = true ∧
    RemovalError.cannotDropElementWithoutParent.parentMissing = true := by
  refine ⟨?_, ?_, by decide, rfl, rfl⟩
  · unfold Selector.remove
    rw [h]
  · unfold Selector.drop
    rw [h]

/-- Claim C6, witness: a one-node document whose root Selector (empty
path) is removed/dropped. -/
theorem remove_drop_root_error_witness :
    Selector.remove (XTree.node "html" []) [] =
      (some RemovalError.cannotRemoveElementWithoutRoot, XTree.node "html" []) ∧
    Selector.drop (XTree.node "html" []) [] =
      (some RemovalError.cannotDropElementWithoutParent, XTree.node "html" []) :=
  ⟨(remove_drop_root_error (XTree.node "html" []) [] rfl).1,
   (remove_drop_root_error (XTree.node "html" []) [] rfl).2.1⟩

/-- Helper for C7: the text resolution path never yields a null root
unless the resolved type tag is `json` (where a JSON document may
decode to null). -/
theorem getRootAndTypeFromText_nonnull (t : String) (typ : Option String) :
    (getRootAndTypeFromText t typ).2 ≠ "json" →
    (getRootAndTypeFromText t typ).1 ≠ Root.null := by
  unfold getRootAndTypeFromText
  split
  · intro _
    simp
  · intro h
    simp at h
  · intro _
    simp

/-- Claim C7, counterexample: `Selector(root=None)` supplies `root`
explicitly (so the construction succeeds — `None` is not the `_NOT_SET`
sentinel), yet the constructed Selector's root is null, refuting the
claimed non-null-root invariant. -/
theorem selectorInit_null_root_counterexample :
    selectorInit none none [] "utf8" (some Root.null) = Except.ok (Root.null, "json") := by
  rfl

/-- Claim C7, amended: a construction that supplies none of text, body,
or root fails with a `ValueError`; a construction that succeeds without
an explicitly supplied root yields a non-null root unless its resolved
type tag is `json` (a JSON text may decode to null); a construction
from an explicitly supplied root adopts that root unchanged — so its
root is null exactly when the caller supplied null. -/
theorem selectorInit_amended (text typ : Option String) (body : List Nat) (enc : String)
    (root : Option Root) :
    (text = none → body = [] → root = none →
      ∃ msg, selectorInit text typ body enc root = Except.error msg) ∧
    (∀ r ty, root = none → selectorInit text typ body enc root = Except.ok (r, ty) →
      ty ≠ "json" → r ≠ Root.null) ∧
    (∀ r0, root = some r0 → text = none → body = [] → validTypeArg typ = true →
      selectorInit text typ body enc root = Except.ok (r0, getRootType r0 typ)) := by
  refine ⟨?_, ?_, ?_⟩
  · rintro rfl rfl rfl
    cases hv : validTypeArg typ with
    | true =>
      refine ⟨"ValueError: Selector needs text, body, or root arguments", ?_⟩
      simp [selectorInit, hv]
    | false =>
      refine ⟨"ValueError: Invalid type", ?_⟩
      simp [selectorInit, hv]
  · rintro r ty rfl hok hty
    unfold selectorInit at hok
    cases hv : validTypeArg typ with
    | false => simp [hv] at hok
    | true =>
      cases text with
      | some t =>
        simp [hv] at hok
        have h1 : (getRootAndTypeFromText t typ).1 = r := by rw [hok]
        have h2 : (getRootAndTypeFromText t typ).2 = ty := by rw [hok]
        rw [← h1]
        exact getRootAndTypeFromText_nonnull t typ (h2 ▸ hty)
      | none =>
        cases body with
        | nil => simp [hv] at hok
        | cons b bs =>
          simp [hv, getRootAndTypeFromBytes] at hok
          have h1 : (getRootAndTypeFromText (String.mk (Char.ofNat b :: bs.map Char.ofNat)) typ).1
              = r := by
            rw [hok]
          have h2 : (getRootAndTypeFromText (String.mk (Char.ofNat b :: bs.map Char.ofNat)) typ).2
              = ty := by
            rw [hok]
          rw [← h1]
          exact getRootAndTypeFromText_nonnull _ typ (h2 ▸ hty)
  · rintro r0 rfl rfl rfl hv
    simp [selectorInit, hv]

/-- Claim C7, witness for the amended statement: the no-argument call
errors, and `Selector(root='h')` adopts the supplied root. -/
theorem selectorInit_amended_witness :
    (∃ msg, selectorInit none none [] "utf8" none = Except.error msg) ∧
    selectorInit none none [] "utf8" (some (Root.str "h")) =
      Except.ok (Root.str "h", getRootType (Root.str "h") none) :=
  ⟨(selectorInit_amended none none [] "utf8" none).1 rfl rfl rfl,
   (selectorInit_amended none none [] "utf8" (some (Root.str "h"))).2.2 (Root.str "h")
     rfl rfl rfl (by decide)⟩

/-- Unfolding lemma: `tokenizeAux` on the empty character list. -/
theorem tokenizeAux_nil (p : Char → Bool) (cur : List Char) :
    tokenizeAux p [] cur = if cur.isEmpty then [] else [String.mk cur.reverse] := rfl

/-- Unfolding lemma: `tokenizeAux` on a cons. -/
theorem tokenizeAux_cons (p : Char → Bool) (c : Char) (cs cur : List Char) :
    tokenizeAux p (c :: cs) cur =
      if p c then
        if cur.isEmpty then tokenizeAux p cs []
        else String.mk cur.reverse :: tokenizeAux p cs []
      else tokenizeAux p cs (c :: cur) := rfl

/-- Helper for C8: `flatten` and `iflatten` perform the same traversal. -/
theorem flatten_eq_iflatten (x : List PyV) : flatten x = iflatten x := by
  induction x using flatten.induct with
  | case1 => simp [flatten, iflatten]
  | case2 el rest h ih1 ih2 =>
    rw [flatten, iflatten]
    simp [h, ih1, ih2]
  | case3 el rest h ih =>
    rw [flatten, iflatten]
    simp [h, ih]

/-- Helper for C8: `flatten` computes exactly the in-order
non-expandable leaves of the nested sequence. -/
theorem flatten_eq_leaves (x : List PyV) : flatten x = leaves x := by
  induction x using flatten.induct with
  | case1 => simp [flatten, leaves]
  | case2 el rest h ih1 ih2 =>
    rw [flatten, leaves]
    simp [show expandable el = true from h, h, ih1, ih2]
  | case3 el rest h ih =>
    rw [flatten, leaves]
    simp [show ¬expandable el = true from h, h, ih]

/-- Claim C8: `flatten` and the materialization of `iflatten` agree
element-for-element on every nested sequence, and both equal the
in-order sequence of non-expandable leaves, where a value is expanded
iff it supports forward iteration and is not a plain string or byte
string — so strings and byte strings are never split into their
characters. -/
theorem flatten_iflatten_agree (x : List PyV) :
    flatten x = iflatten x ∧ flatten x = leaves x :=
  ⟨flatten_eq_iflatten x, flatten_eq_leaves x⟩

/-- Helper for C9: every HTML5 whitespace character is Python split
whitespace. -/
theorem isHtml5Ws_isPyWs {c : Char} (h : isHtml5Ws c = true) : isPyWs c = true := by
  simp only [isHtml5Ws, HTML5_WHITESPACE, List.any_cons, List.any_nil, Bool.or_false,
    Bool.or_eq_true, beq_iff_eq] at h
  rcases h with rfl | rfl | rfl | rfl | rfl <;> rfl

/-- Helper for C9: collapsing HTML5-whitespace runs to single spaces
does not change Python-whitespace tokenization — a space is itself
Python whitespace, and so were the collapsed characters.  The flag
`inRun` is only ever true right after a separator, when the current
token accumulator is empty. -/
theorem tokenizeAux_collapseRunsAux (l : List Char) :
    ∀ (inRun : Bool) (cur : List Char), (inRun = true → cur = []) →
      tokenizeAux isPyWs (collapseRunsAux inRun l) cur = tokenizeAux isPyWs l cur := by
  induction l with
  | nil =>
    intro inRun cur _
    rfl
  | cons c cs ih =>
    intro inRun cur hcur
    by_cases h : isHtml5Ws c = true
    · have hpy : isPyWs c = true := isHtml5Ws_isPyWs h
      cases inRun with
      | true =>
        have hc : cur = [] := hcur rfl
        subst hc
        rw [show collapseRunsAux true (c :: cs) = collapseRunsAux true cs from by
          simp [collapseRunsAux, h]]
        rw [ih true [] (fun _ => rfl), tokenizeAux_cons]
        simp [hpy]
      | false =>
        rw [show collapseRunsAux false (c :: cs) = ' ' :: collapseRunsAux true cs from by
          simp [collapseRunsAux, h]]
        rw [tokenizeAux_cons, tokenizeAux_cons]
        simp only [show isPyWs ' ' = true from rfl, hpy, if_true]
        rw [ih true [] (fun _ => rfl)]
    · rw [show collapseRunsAux inRun (c :: cs) = c :: collapseRunsAux false cs from by
        simp [collapseRunsAux, h]]
      rw [tokenizeAux_cons, tokenizeAux_cons]
      by_cases hc : isPyWs c = true
      · simp only [hc, if_true]
        by_cases hcur2 : cur.isEmpty <;>
          simp [hcur2, ih false [] (fun hcontr => by cases hcontr)]
      · simp only [hc, if_false]
        exact ih false (c :: cur) (fun hcontr => by cases hcontr)

/-- Claim C9, counterexample: two concrete inputs separate the code
from the claim.  An element with no `class` attribute and an empty
argument list: the code returns false (the falsy-attribute guard fires
first) while the claim's universally-quantified membership is vacuously
true.  An element with `class="a\x0bb"` (`\x0b` is Python split
whitespace but not HTML5 whitespace) queried for `a`: the code
tokenizes it apart and returns true, while HTML5 tokenization keeps
the attribute value whole, making the claim's predicate false. -/
theorem has_class_counterexample :
    has_class none [] = false ∧ hasClassClaim none [] = true ∧
    has_class (some "a\x0bb") ["a"] = true ∧ hasClassClaim (some "a\x0bb") ["a"] = false := by
  refine ⟨rfl, rfl, by decide, by decide⟩

/-- Claim C9, amended: the extension function evaluates to true iff the
element's `class` attribute is present and non-empty and every listed
class name is present in the attribute tokenized on Python's
split-whitespace set (a strict superset of the HTML5 whitespace set,
e.g. including the vertical tab). -/
theorem has_class_amended_eq (classAttr : Option String) (classes : List String) :
    has_class classAttr classes = hasClassAmended classAttr classes := by
  cases classAttr with
  | none => rfl
  | some c =>
    unfold has_class hasClassAmended
    by_cases h : c = ""
    · simp [h]
    · simp only [h, if_false]
      have ht : tokenize isPyWs (replace_html5_whitespaces c) = tokenize isPyWs c := by
        unfold tokenize replace_html5_whitespaces collapseRuns
        exact tokenizeAux_collapseRunsAux c.data false [] (fun hcontr => by cases hcontr)
      rw [ht]

end Parsel
